import Mathlib

/-!
Shallow embedding of the posting-orchestration engine of
`src/app/backend/automation/` (base.py, craigslist.py, facebook.py).

Conventions of the embedding:
* time is modelled in integer seconds (`Int`); `datetime.now()` becomes an
  explicit `now : Int` parameter;
* the adapter's effectful methods (`initialize_browser`, `validate_credentials`,
  `post_ad`) are supplied as oracles of type `Except String _`: `.error e`
  models the method raising an exception whose text is `e`;
* the calls the manager makes on an adapter are recorded in an event list so
  that "the adapter's session was never invoked" is statable;
* Python truthiness (`x or 300`) and dict semantics are modelled explicitly.
-/

namespace CrossPostMe

/-- PostStatus enum from base.py. -/
inductive PostStatus
  | success
  | failed
  | rate_limited
  | account_blocked
  | captcha_required
  | login_required
deriving DecidableEq, Repr

/-- PostResult dataclass from base.py; `retry_after` is in seconds. -/
structure PostResult where
  status : PostStatus
  platform_ad_id : Option String := none
  post_url : Option String := none
  message : Option String := none
  error_code : Option String := none
  retry_after : Option Int := none
deriving DecidableEq, Repr

/-- The mutable error-tracking fields of `PlatformAutomationBase`
(consecutive_failures, last_success_time, blocked_until). -/
structure AdapterState where
  consecutive_failures : Nat := 0
  last_success_time : Option Int := none
  blocked_until : Option Int := none
deriving DecidableEq, Repr

/-- PlatformAutomationBase.is_rate_limited: `blocked_until` is set and still in
the future.  (A Python `datetime` is always truthy, so `self.blocked_until and
datetime.now() < self.blocked_until` is exactly this test.) -/
def is_rate_limited (now : Int) (st : AdapterState) : Bool :=
  match st.blocked_until with
  | some b => decide (now < b)
  | none => false

/-- PlatformAutomationBase.mark_rate_limited. -/
def mark_rate_limited (now : Int) (retry_after : Int) (st : AdapterState) : AdapterState :=
  { st with
    blocked_until := some (now + retry_after)
    consecutive_failures := st.consecutive_failures + 1 }

/-- PlatformAutomationBase.mark_success. -/
def mark_success (now : Int) (_st : AdapterState) : AdapterState :=
  { consecutive_failures := 0
    last_success_time := some now
    blocked_until := none }

/-- Python `result.retry_after or 300`: `None` and `0` are falsy and give the
default 300; any other value (including a negative one) is kept. -/
def retryAfterOrDefault (r : Option Int) : Int :=
  match r with
  | some v => if v = 0 then 300 else v
  | none => 300

/-- One posting attempt's worth of adapter behaviour, supplied as oracles:
what `initialize_browser` (the `async with platform` entry), then
`validate_credentials`, then `post_ad` would do if called. -/
structure AdapterBehavior where
  init_browser : Except String Unit
  validate_credentials : Except String Bool
  post_ad : Except String PostResult

/-- The calls the manager can make on an adapter during `post_to_platform`.
`throttleAcquire` models `Throttler.acquire` on the throttler built in
`PlatformAutomationBase.__init__` (base.py line 85); nothing in the source
ever calls it, so it never appears in an event list. -/
inductive AdapterCall
  | throttleAcquire
  | initBrowser
  | validateCredentials
  | postAd
  | cleanup
deriving DecidableEq, Repr

/-- Registry lookup: `platform_name in self.platforms` / `self.platforms[...]`.
The registry is an association list with unique keys (a Python dict). -/
def lookupPlatform (ps : List (String × AdapterState)) (name : String) :
    Option AdapterState :=
  match ps with
  | [] => none
  | p :: rest => if p.1 = name then some p.2 else lookupPlatform rest name

/-- In-place mutation of the named adapter's state, seen through the registry. -/
def setPlatform (ps : List (String × AdapterState)) (name : String)
    (st : AdapterState) : List (String × AdapterState) :=
  ps.map (fun p => if p.1 = name then (p.1, st) else p)

/-- AutomationManager.post_to_platform (base.py lines 375-429), returning the
result, the registry afterwards, and the calls made on the adapter.
Control flow mirrors the source: unknown platform → FAILED; rate-limited →
RATE_LIMITED with `retry_after = int((blocked_until - now).total_seconds())`
(exact in integer seconds) and no adapter call; otherwise the `async with`
body runs: a raise from `initialize_browser` skips cleanup (failed
`__aenter__`), a raise from `validate_credentials` or `post_ad` runs cleanup
first, and any raise lands in the `except` branch which increments
`consecutive_failures` and returns FAILED with error_code AUTOMATION_ERROR. -/
def post_to_platform (ps : List (String × AdapterState)) (platform_name : String)
    (b : AdapterBehavior) (now : Int) :
    PostResult × List (String × AdapterState) × List AdapterCall :=
  match lookupPlatform ps platform_name with
  | none =>
      ({ status := .failed,
         message := some ("Platform " ++ platform_name ++ " not supported") },
       ps, [])
  | some platform =>
    if is_rate_limited now platform then
      ({ status := .rate_limited
         message := some "Platform is rate limited"
         retry_after := some (match platform.blocked_until with
                              | some bu => bu - now
                              | none => 0) },
       ps, [])
    else
      match b.init_browser with
      | .error e =>
          ({ status := .failed, message := some e,
             error_code := some "AUTOMATION_ERROR" },
           setPlatform ps platform_name
             { platform with
               consecutive_failures := platform.consecutive_failures + 1 },
           [.initBrowser])
      | .ok _ =>
        match b.validate_credentials with
        | .error e =>
            ({ status := .failed, message := some e,
               error_code := some "AUTOMATION_ERROR" },
             setPlatform ps platform_name
               { platform with
                 consecutive_failures := platform.consecutive_failures + 1 },
             [.initBrowser, .validateCredentials, .cleanup])
        | .ok false =>
            ({ status := .login_required, message := some "Invalid credentials" },
             ps,
             [.initBrowser, .validateCredentials, .cleanup])
        | .ok true =>
          match b.post_ad with
          | .error e =>
              ({ status := .failed, message := some e,
                 error_code := some "AUTOMATION_ERROR" },
               setPlatform ps platform_name
                 { platform with
                   consecutive_failures := platform.consecutive_failures + 1 },
               [.initBrowser, .validateCredentials, .postAd, .cleanup])
          | .ok result =>
            let platform' :=
              if result.status = .success then mark_success now platform
              else if result.status = .rate_limited then
                mark_rate_limited now (retryAfterOrDefault result.retry_after) platform
              else platform
            (result, setPlatform ps platform_name platform',
             [.initBrowser, .validateCredentials, .postAd, .cleanup])

/-- Python dict assignment `results[name] = v` on an association list with
unique keys: replace the first entry with that key, or append. -/
def dictInsert : List (String × PostResult) → String → PostResult →
    List (String × PostResult)
  | [], k, v => [(k, v)]
  | p :: rest, k, v =>
      if p.1 = k then (k, v) :: rest else p :: dictInsert rest k v

/-- Python dict lookup `results.get(name)`. -/
def dictLookup : List (String × PostResult) → String → Option PostResult
  | [], _ => none
  | p :: rest, k => if p.1 = k then some p.2 else dictLookup rest k

/-- AutomationManager.post_to_multiple_platforms (base.py lines 431-458).
The per-platform task is `post_to_platform(name, ad_data, credentials_map
[name])`; one awaited task is abstracted as `task : String → Except String
PostResult`, `.error e` modelling the task raising with text `e`.  Platforms
absent from the credentials map are filtered out before any task is created;
each awaited task sits in its own try/except that converts a raise into a
FAILED result for that platform only, so the loop itself never raises. -/
def post_to_multiple_platforms (platforms : List String)
    (credentials_map_keys : List String)
    (task : String → Except String PostResult) : List (String × PostResult) :=
  let tasks := platforms.filter (fun p => credentials_map_keys.contains p)
  tasks.foldl
    (fun results name =>
      dictInsert results name
        (match task name with
         | .ok r => r
         | .error e => { status := .failed, message := some e }))
    []

/-- Python str.lower, character-wise (text is modelled as its character list;
faithful for ASCII, which is all the source compares). -/
def lowerStr (s : List Char) : List Char := s.map Char.toLower

/-- Python str.strip: drop leading and trailing whitespace. -/
def stripStr (s : List Char) : List Char :=
  ((s.dropWhile Char.isWhitespace).reverse.dropWhile Char.isWhitespace).reverse

/-- Whether `needle` is a prefix of `hay`. -/
def isPrefixCh : List Char → List Char → Bool
  | [], _ => true
  | _ :: _, [] => false
  | a :: as, b :: bs => a == b && isPrefixCh as bs

/-- Python substring test `needle in hay`: `needle` is a prefix of some suffix
of `hay`. -/
def substrOf : List Char → List Char → Bool
  | needle, [] => isPrefixCh needle []
  | needle, h :: t => isPrefixCh needle (h :: t) || substrOf needle t

/-- Whether an area option with text `t` is an exact match for the lower-cased
input `ll`: the text must be truthy (Python `if text:` skips empty texts) and
its lower-cased, stripped form equal to `ll`. -/
def exactOption (ll : List Char) (t : List Char) : Bool :=
  (!(t == [])) && (ll == stripStr (lowerStr t))

/-- The option-scanning loop of
`CraigslistAutomation._handle_location_selection` (craigslist.py lines
256-280): walk the option texts, breaking at the first exact (lower-cased,
stripped) match; otherwise remember a substring match while `matched_index`
is still 0; after the loop the exact match, if found, wins.  `i` is the index
of the head of `ts` and `matched` is the running `matched_index`. -/
def scanAreaOptions (ll : List Char) : List (List Char) → Nat → Nat → Nat
  | [], _, matched => matched
  | t :: ts, i, matched =>
    if t = [] then scanAreaOptions ll ts (i + 1) matched
    else
      let tl := stripStr (lowerStr t)
      if ll = tl then i
      else
        let matched' :=
          if substrOf ll tl && matched == 0 then i else matched
        scanAreaOptions ll ts (i + 1) matched'

/-- Index of the `select[name="area"]` option that
`_handle_location_selection` selects, given the option texts in order. -/
def _handle_location_selection (location : String) (options : List String) :
    Nat :=
  scanAreaOptions (lowerStr location.toList) (options.map String.toList) 0 0

/-- The index the loop actually settles on when no exact match exists: the
first non-empty substring-matching option at a POSITIVE index, else 0.  (A
substring match at index 0 leaves `matched_index` at its default 0, so the
`matched_index == 0` guard lets a later substring match overwrite it.) -/
def firstPosSubstrIdx (ll : List Char) : List (List Char) → Nat → Nat
  | [], _ => 0
  | t :: ts, i =>
    if (!(t == [])) && substrOf ll (stripStr (lowerStr t)) && (!(i == 0)) then i
    else firstPosSubstrIdx ll ts (i + 1)

/-- The per-URL retry loop `for attempt in range(max_retries)` of the
adapters' image downloads, run with `remaining = max_retries - attempt`
iterations left.  `ok a` says whether attempt number `a` succeeds in writing
a complete non-empty file.  Returns (downloaded?, attempts made, seconds
slept — `2 ** attempt` after each failed attempt other than the last). -/
def runAttemptsAux (ok : Nat → Bool) (max_retries : Nat) :
    Nat → Nat → Bool × Nat × List Nat
  | _, 0 => (false, 0, [])
  | attempt, remaining + 1 =>
    if ok attempt then (true, 1, [])
    else if attempt < max_retries - 1 then
      let r := runAttemptsAux ok max_retries (attempt + 1) remaining
      (r.1, r.2.1 + 1, 2 ^ attempt :: r.2.2)
    else (false, 1, [])

def runAttempts (ok : Nat → Bool) (max_retries : Nat) : Bool × Nat × List Nat :=
  runAttemptsAux ok max_retries 0 max_retries

/-- Download bookkeeping: the adapter's `temp_files` list, the seconds slept
so far, and the temp files existing non-empty on disk.  A temp file is
identified by its url index — the source names it
`craigslist_upload_{i}{ext}` resp. `fb_upload_{i}{ext}`, distinct per i. -/
structure DlState where
  temp_files : List Nat
  sleeps : List Nat
  fs : List Nat
deriving DecidableEq, Repr

/-- A successful (re)write of temp file `i` (idempotent on the file set). -/
def fsAdd (fs : List Nat) (i : Nat) : List Nat :=
  if fs.contains i then fs else fs ++ [i]

/-- Per-URL body of `CraigslistAutomation._download_images_for_upload`:
append the temp file to the tracking list, run up to 3 attempts (a failed
attempt unlinks its partial file, and sleeps `2 ** attempt` seconds unless it
was the last), and on total failure remove the temp file from the list. -/
def cl_download_step (ok : Nat → Nat → Bool) (s : DlState) (i : Nat) :
    DlState :=
  let temp_files := s.temp_files ++ [i]
  let r := runAttempts (ok i) 3
  if r.1 then
    { temp_files := temp_files, sleeps := s.sleeps ++ r.2.2,
      fs := fsAdd s.fs i }
  else
    { temp_files := temp_files.erase i, sleeps := s.sleeps ++ r.2.2,
      fs := s.fs }

/-- CraigslistAutomation._download_images_for_upload (craigslist.py lines
359-433): iterate over the url indices, then return only the files that
exist non-empty (`valid_files`), together with the final state. -/
def cl_download_images (ok : Nat → Nat → Bool) (image_urls : List String) :
    List Nat × DlState :=
  let s := (List.range image_urls.length).foldl (cl_download_step ok)
    { temp_files := [], sleeps := [], fs := [] }
  (s.temp_files.filter (fun f => s.fs.contains f), s)

/-- Per-URL body of `FacebookMarketplaceAutomation._download_images`: same
retry loop, but a url that fails all attempts is neither unlinked nor removed
from `temp_files` (a failed attempt is modelled as leaving no file). -/
def fb_download_step (ok : Nat → Nat → Bool) (s : DlState) (i : Nat) :
    DlState :=
  let temp_files := s.temp_files ++ [i]
  let r := runAttempts (ok i) 3
  { temp_files := temp_files, sleeps := s.sleeps ++ r.2.2,
    fs := if r.1 then fsAdd s.fs i else s.fs }

/-- FacebookMarketplaceAutomation._download_images (facebook.py lines
374-435): the temp-file path of EVERY url is returned — there is no final
existence filter and no removal of failed downloads. -/
def fb_download_images (ok : Nat → Nat → Bool) (image_urls : List String) :
    List Nat × DlState :=
  let s := (List.range image_urls.length).foldl (fb_download_step ok)
    { temp_files := [], sleeps := [], fs := [] }
  (s.temp_files, s)

/-- _cleanup_temp_files (both adapters): unlink each listed temp file that
exists; returns the filesystem afterwards. -/
def _cleanup_temp_files (fs : List Nat) (temp_files : List Nat) : List Nat :=
  temp_files.foldl (fun fs' f => fs'.filter (· ≠ f)) fs

/-- CraigslistAutomation._upload_images (craigslist.py lines 316-357).
Oracles: `input_visible` for the file-input probe and `set_files` for
`set_input_files` (which may raise).  The upload-completion wait catches its
own exceptions and its Bool result is discarded by the source, so it is
passed as an ignored `wait_result`.  Returns (returned value, filesystem
after the `finally` cleanup). -/
def cl_upload_images (ok : Nat → Nat → Bool) (image_urls : List String)
    (input_visible : Bool) (set_files : Except String Unit)
    (wait_result : Bool) : Bool × List Nat :=
  if image_urls.isEmpty then (true, [])
  else if input_visible then
    let d := cl_download_images ok image_urls
    if d.1.isEmpty then (false, _cleanup_temp_files d.2.fs d.1)
    else
      match set_files with
      | .error _ => (false, _cleanup_temp_files d.2.fs d.1)
      | .ok _ =>
        match wait_result with
        | _ => (true, _cleanup_temp_files d.2.fs d.1)
  else (false, [])

/-- FacebookMarketplaceAutomation._upload_images (facebook.py lines 320-372).
Oracles: `button_visible` for the upload-button probe, `direct` for the
direct `set_input_files`, `chooser` for the file-chooser fallback; the
completion wait catches its own exceptions and its result is discarded. -/
def fb_upload_images (ok : Nat → Nat → Bool) (image_urls : List String)
    (button_visible : Bool) (direct : Except String Unit)
    (chooser : Except String Unit) (wait_result : Bool) : Bool × List Nat :=
  if image_urls.isEmpty then (true, [])
  else
    let d := fb_download_images ok image_urls
    if d.1.isEmpty then (false, _cleanup_temp_files d.2.fs d.1)
    else if button_visible then
      match direct with
      | .ok _ =>
        match wait_result with
        | _ => (true, _cleanup_temp_files d.2.fs d.1)
      | .error _ =>
        match chooser with
        | .ok _ =>
          match wait_result with
          | _ => (true, _cleanup_temp_files d.2.fs d.1)
        | .error _ => (false, _cleanup_temp_files d.2.fs d.1)
    else (false, _cleanup_temp_files d.2.fs d.1)

/-- Looking up a key after writing it through `setPlatform` yields the new
state, provided the key was present. -/
theorem lookupPlatform_setPlatform (ps : List (String × AdapterState))
    (name : String) (st st' : AdapterState)
    (h : lookupPlatform ps name = some st) :
    lookupPlatform (setPlatform ps name st') name = some st' := by
  induction ps with
  | nil => simp [lookupPlatform] at h
  | cons p rest ih =>
    by_cases hp : p.1 = name
    · simp [lookupPlatform, setPlatform, hp]
    · simp [lookupPlatform, setPlatform, hp] at h ⊢
      exact ih h

/-- C1: if the registered platform's `blocked_until` lies in the future,
`post_to_platform` returns RATE_LIMITED with `retry_after = blocked_until -
now` (whole seconds), leaves the registry untouched, and makes no call at all
on the adapter (no browser init, no validate_credentials, no post_ad). -/
theorem post_to_platform_blocked_fails_fast
    (ps : List (String × AdapterState)) (name : String) (b : AdapterBehavior)
    (now bu : Int) (st : AdapterState)
    (hreg : lookupPlatform ps name = some st)
    (hbu : st.blocked_until = some bu) (hlt : now < bu) :
    post_to_platform ps name b now =
      ({ status := .rate_limited
         message := some "Platform is rate limited"
         retry_after := some (bu - now) }, ps, []) := by
  simp [post_to_platform, hreg, is_rate_limited, hbu, hlt]

/-- Witness for C1 at a concrete registry and clock. -/
theorem post_to_platform_blocked_fails_fast_witness :
    post_to_platform
      [("craigslist",
        { consecutive_failures := 2, last_success_time := none,
          blocked_until := some 500 })]
      "craigslist"
      ⟨.ok (), .ok true, .ok { status := .success }⟩ 100 =
      ({ status := .rate_limited
         message := some "Platform is rate limited"
         retry_after := some 400 }, [("craigslist",
        { consecutive_failures := 2, last_success_time := none,
          blocked_until := some 500 })], []) := by
  have h := post_to_platform_blocked_fails_fast
    [("craigslist",
      { consecutive_failures := 2, last_success_time := none,
        blocked_until := some 500 })]
    "craigslist" ⟨.ok (), .ok true, .ok { status := .success }⟩ 100 500
    { consecutive_failures := 2, last_success_time := none,
      blocked_until := some 500 }
    (by decide) rfl (by decide)
  simpa using h

/-- C2 (amended): when the adapter returns a result (no exception), a SUCCESS
result resets the adapter state to clean (counter 0, no block, last success =
now), and a RATE_LIMITED result sets `blocked_until = now + r` where `r` is the
result's retry_after if it is present and non-zero and 300 otherwise (Python
`result.retry_after or 300`), incrementing the failure counter by exactly 1. -/
theorem post_to_platform_state_update
    (ps : List (String × AdapterState)) (name : String) (b : AdapterBehavior)
    (now : Int) (st : AdapterState) (r : PostResult)
    (hreg : lookupPlatform ps name = some st)
    (hrl : is_rate_limited now st = false)
    (hinit : b.init_browser = .ok ())
    (hval : b.validate_credentials = .ok true)
    (hpost : b.post_ad = .ok r) :
    (r.status = .success →
      lookupPlatform (post_to_platform ps name b now).2.1 name =
        some { consecutive_failures := 0, last_success_time := some now,
               blocked_until := none })
    ∧ (r.status = .rate_limited →
      lookupPlatform (post_to_platform ps name b now).2.1 name =
        some { st with
               consecutive_failures := st.consecutive_failures + 1
               blocked_until :=
                 some (now + retryAfterOrDefault r.retry_after) }) := by
  constructor
  · intro hs
    simp [post_to_platform, hreg, hrl, hinit, hval, hpost, hs, mark_success,
      lookupPlatform_setPlatform ps name st _ hreg]
  · intro hs
    have : ¬ r.status = PostStatus.success := by
      rw [hs]; intro h; cases h
    simp [post_to_platform, hreg, hrl, hinit, hval, hpost, hs, this,
      mark_rate_limited, lookupPlatform_setPlatform ps name st _ hreg]

/-- Witness for C2 (amended) at a concrete run: a SUCCESS result at time 100
resets the state, and a RATE_LIMITED result with retry_after 60 blocks until
160 with the counter going from 2 to 3. -/
theorem post_to_platform_state_update_witness :
    (lookupPlatform
      (post_to_platform
        [("facebook", { consecutive_failures := 2 })] "facebook"
        ⟨.ok (), .ok true, .ok { status := .rate_limited, retry_after := some 60 }⟩
        100).2.1 "facebook") =
      some { consecutive_failures := 3, last_success_time := none,
             blocked_until := some 160 } := by
  have h := (post_to_platform_state_update
    [("facebook", { consecutive_failures := 2 })] "facebook"
    ⟨.ok (), .ok true, .ok { status := .rate_limited, retry_after := some 60 }⟩
    100 { consecutive_failures := 2 }
    { status := .rate_limited, retry_after := some 60 }
    (by decide) (by decide) rfl rfl rfl).2 rfl
  simpa [retryAfterOrDefault] using h

/-- C2 counterexample: a RATE_LIMITED result whose retry_after is 0 blocks the
adapter until now + 300, not now + 0, because the source computes
`result.retry_after or 300` and 0 is falsy in Python. -/
theorem post_to_platform_retry_after_zero_counterexample :
    (lookupPlatform
      (post_to_platform [("facebook", {})] "facebook"
        ⟨.ok (), .ok true, .ok { status := .rate_limited, retry_after := some 0 }⟩
        100).2.1 "facebook") =
      some { consecutive_failures := 1, last_success_time := none,
             blocked_until := some 400 }
    ∧ (400 : Int) ≠ 100 + 0 := by
  constructor
  · rfl
  · decide

/-- C3 (amended): when the adapter returns, without raising, a result whose
status is neither SUCCESS nor RATE_LIMITED, the manager leaves the adapter's
state entirely unchanged: in particular `consecutive_failures` is NOT
incremented (only the exception path increments it) and `blocked_until` is
untouched.  The result is passed through unchanged. -/
theorem post_to_platform_other_status_leaves_state
    (ps : List (String × AdapterState)) (name : String) (b : AdapterBehavior)
    (now : Int) (st : AdapterState) (r : PostResult)
    (hreg : lookupPlatform ps name = some st)
    (hrl : is_rate_limited now st = false)
    (hinit : b.init_browser = .ok ())
    (hval : b.validate_credentials = .ok true)
    (hpost : b.post_ad = .ok r)
    (hs : r.status ≠ .success)
    (hrl2 : r.status ≠ .rate_limited) :
    (post_to_platform ps name b now).1 = r
    ∧ lookupPlatform (post_to_platform ps name b now).2.1 name = some st := by
  constructor
  · simp [post_to_platform, hreg, hrl, hinit, hval, hpost]
  · simp [post_to_platform, hreg, hrl, hinit, hval, hpost, hs, hrl2,
      lookupPlatform_setPlatform ps name st _ hreg]

/-- Witness for C3 (amended): a FAILED result leaves the recorded state
`consecutive_failures = 2` exactly as it was. -/
theorem post_to_platform_other_status_leaves_state_witness :
    (lookupPlatform
      (post_to_platform [("offerup", { consecutive_failures := 2 })] "offerup"
        ⟨.ok (), .ok true, .ok { status := .failed }⟩ 100).2.1 "offerup") =
      some { consecutive_failures := 2 } :=
  (post_to_platform_other_status_leaves_state
    [("offerup", { consecutive_failures := 2 })] "offerup"
    ⟨.ok (), .ok true, .ok { status := .failed }⟩ 100
    { consecutive_failures := 2 } { status := .failed }
    (by decide) (by decide) rfl rfl rfl (by decide) (by decide)).2

/-- C3 counterexample: a FAILED result obtained without an exception does not
increment the counter — starting from a clean state the counter stays 0,
where the claim requires it to become 1. -/
theorem post_to_platform_failed_no_increment_counterexample :
    (lookupPlatform
      (post_to_platform [("facebook", {})] "facebook"
        ⟨.ok (), .ok true, .ok { status := .failed }⟩ 100).2.1 "facebook") =
      some ({} : AdapterState)
    ∧ ({} : AdapterState).consecutive_failures ≠ 0 + 1 := by
  constructor
  · rfl
  · decide

/-- C5: if session setup, credential validation or the post itself raises, the
exception does not propagate: `post_to_platform` returns FAILED with the
exception text as message and error_code AUTOMATION_ERROR. -/
theorem post_to_platform_exception_boundary
    (ps : List (String × AdapterState)) (name : String) (b : AdapterBehavior)
    (now : Int) (st : AdapterState)
    (hreg : lookupPlatform ps name = some st)
    (hrl : is_rate_limited now st = false) :
    (∀ e, b.init_browser = .error e →
      (post_to_platform ps name b now).1 =
        { status := .failed, message := some e,
          error_code := some "AUTOMATION_ERROR" })
    ∧ (∀ e, b.init_browser = .ok () → b.validate_credentials = .error e →
      (post_to_platform ps name b now).1 =
        { status := .failed, message := some e,
          error_code := some "AUTOMATION_ERROR" })
    ∧ (∀ e, b.init_browser = .ok () → b.validate_credentials = .ok true →
        b.post_ad = .error e →
      (post_to_platform ps name b now).1 =
        { status := .failed, message := some e,
          error_code := some "AUTOMATION_ERROR" }) := by
  refine ⟨fun e he => ?_, fun e h1 he => ?_, fun e h1 h2 he => ?_⟩ <;>
    simp [post_to_platform, hreg, hrl, *]

/-- Witness for C5: a post_ad that raises "boom" is folded into
FAILED / AUTOMATION_ERROR. -/
theorem post_to_platform_exception_boundary_witness :
    (post_to_platform [("ebay", {})] "ebay"
      ⟨.ok (), .ok true, .error "boom"⟩ 100).1 =
      { status := .failed, message := some "boom",
        error_code := some "AUTOMATION_ERROR" } :=
  (post_to_platform_exception_boundary [("ebay", {})] "ebay"
    ⟨.ok (), .ok true, .error "boom"⟩ 100 {} (by decide) (by decide)).2.2
    "boom" rfl rfl rfl

/-- C10: a registered, unblocked platform whose `validate_credentials` returns
false yields LOGIN_REQUIRED with message "Invalid credentials"; `post_ad` is
never called and the registry (hence consecutive_failures,
last_success_time and blocked_until) is left unchanged. -/
theorem post_to_platform_invalid_credentials
    (ps : List (String × AdapterState)) (name : String) (b : AdapterBehavior)
    (now : Int) (st : AdapterState)
    (hreg : lookupPlatform ps name = some st)
    (hrl : is_rate_limited now st = false)
    (hinit : b.init_browser = .ok ())
    (hval : b.validate_credentials = .ok false) :
    (post_to_platform ps name b now).1 =
      { status := .login_required, message := some "Invalid credentials" }
    ∧ (post_to_platform ps name b now).2.1 = ps
    ∧ AdapterCall.postAd ∉ (post_to_platform ps name b now).2.2 := by
  refine ⟨?_, ?_, ?_⟩ <;> simp [post_to_platform, hreg, hrl, hinit, hval]

/-- Witness for C10 at a concrete registry. -/
theorem post_to_platform_invalid_credentials_witness :
    (post_to_platform [("craigslist", { consecutive_failures := 1 })]
      "craigslist" ⟨.ok (), .ok false, .ok { status := .success }⟩ 100).1 =
      { status := .login_required, message := some "Invalid credentials" } :=
  (post_to_platform_invalid_credentials
    [("craigslist", { consecutive_failures := 1 })] "craigslist"
    ⟨.ok (), .ok false, .ok { status := .success }⟩ 100
    { consecutive_failures := 1 } (by decide) (by decide) rfl rfl).1

/-- C9 (what the code actually does): no path of `post_to_platform` ever
acquires a token from the adapter's throttler — the Throttler built in
`PlatformAutomationBase.__init__` is never used — while every registered,
unblocked attempt does start browser/session interaction.  So session
interaction begins without a token ever being consumed. -/
theorem post_to_platform_never_acquires_throttle :
    (∀ ps name b now,
      AdapterCall.throttleAcquire ∉ (post_to_platform ps name b now).2.2)
    ∧ (∀ ps name (b : AdapterBehavior) now st,
        lookupPlatform ps name = some st → is_rate_limited now st = false →
        b.init_browser = .ok () →
        AdapterCall.initBrowser ∈ (post_to_platform ps name b now).2.2) := by
  constructor
  · intro ps name b now
    cases hreg : lookupPlatform ps name with
    | none => simp [post_to_platform, hreg]
    | some st =>
      cases hrl : is_rate_limited now st with
      | true => simp [post_to_platform, hreg, hrl]
      | false =>
        cases hib : b.init_browser with
        | error e => simp [post_to_platform, hreg, hrl, hib]
        | ok u =>
          cases hvc : b.validate_credentials with
          | error e => simp [post_to_platform, hreg, hrl, hib, hvc]
          | ok v =>
            cases v with
            | false => simp [post_to_platform, hreg, hrl, hib, hvc]
            | true =>
              cases hpa : b.post_ad with
              | error e => simp [post_to_platform, hreg, hrl, hib, hvc, hpa]
              | ok r => simp [post_to_platform, hreg, hrl, hib, hvc, hpa]
  · intro ps name b now st hreg hrl hib
    cases hvc : b.validate_credentials with
    | error e => simp [post_to_platform, hreg, hrl, hib, hvc]
    | ok v =>
      cases v with
      | false => simp [post_to_platform, hreg, hrl, hib, hvc]
      | true =>
        cases hpa : b.post_ad with
        | error e => simp [post_to_platform, hreg, hrl, hib, hvc, hpa]
        | ok r => simp [post_to_platform, hreg, hrl, hib, hvc, hpa]

/-- Witness for C9: on a concrete registered, unblocked attempt the call list
contains browser initialization and no throttler acquisition. -/
theorem post_to_platform_never_acquires_throttle_witness :
    AdapterCall.throttleAcquire ∉
      (post_to_platform [("facebook", {})] "facebook"
        ⟨.ok (), .ok true, .ok { status := .success }⟩ 100).2.2
    ∧ AdapterCall.initBrowser ∈
      (post_to_platform [("facebook", {})] "facebook"
        ⟨.ok (), .ok true, .ok { status := .success }⟩ 100).2.2 :=
  ⟨post_to_platform_never_acquires_throttle.1 [("facebook", {})] "facebook"
    ⟨.ok (), .ok true, .ok { status := .success }⟩ 100,
   post_to_platform_never_acquires_throttle.2 [("facebook", {})] "facebook"
    ⟨.ok (), .ok true, .ok { status := .success }⟩ 100 {} (by decide)
    (by decide) rfl⟩

theorem contains_eq_mem (l : List String) (a : String) :
    l.contains a = true ↔ a ∈ l := by
  simp [List.contains, List.elem_iff]

theorem dictLookup_dictInsert (m : List (String × PostResult)) (k p : String)
    (v : PostResult) :
    dictLookup (dictInsert m k v) p =
      if p = k then some v else dictLookup m p := by
  induction m with
  | nil =>
    by_cases h : p = k
    · subst h; simp [dictInsert, dictLookup]
    · have h' : ¬ k = p := fun hh => h hh.symm
      simp [dictInsert, dictLookup, h, h']
  | cons q rest ih =>
    by_cases hq : q.1 = k
    · by_cases hp : p = k
      · subst hp; simp [dictInsert, dictLookup, hq]
      · have h' : ¬ k = p := fun hh => hp hh.symm
        have hqp : ¬ q.1 = p := by rw [hq]; exact h'
        simp [dictInsert, dictLookup, hq, hp, h', hqp]
    · by_cases hp2 : q.1 = p
      · have hpk : ¬ p = k := fun hh => hq (by rw [hp2, hh])
        simp [dictInsert, dictLookup, hq, hp2, hpk]
      · simp [dictInsert, dictLookup, hq, hp2, ih]

theorem dictLookup_fold (f : String → PostResult) (l : List String) :
    ∀ m0 p, dictLookup (l.foldl (fun m n => dictInsert m n (f n)) m0) p =
      if p ∈ l then some (f p) else dictLookup m0 p := by
  induction l with
  | nil => intro m0 p; simp
  | cons a rest ih =>
    intro m0 p
    by_cases hp : p ∈ rest
    · simp [List.foldl, ih, hp]
    · by_cases hpa : p = a
      · simp [List.foldl, ih, hp, hpa, dictLookup_dictInsert]
      · simp [List.foldl, ih, hp, hpa, dictLookup_dictInsert]

/-- C4: the result map of `post_to_multiple_platforms` has exactly the
requested platforms that carry credentials as keys (platforms without
credentials are absent, not reported failed); a platform whose task raises is
mapped to FAILED with the exception text, and a platform whose task returns a
result is mapped to exactly that result — each independently of the others.
The model is a total function, reflecting that the per-task try/except keeps
the call from raising. -/
theorem post_to_multiple_platforms_isolation (platforms : List String)
    (creds : List String) (task : String → Except String PostResult) :
    (∀ p, (dictLookup (post_to_multiple_platforms platforms creds task) p).isSome
      ↔ (p ∈ platforms ∧ p ∈ creds))
    ∧ (∀ p e, p ∈ platforms → p ∈ creds → task p = .error e →
        dictLookup (post_to_multiple_platforms platforms creds task) p =
          some { status := .failed, message := some e })
    ∧ (∀ p r, p ∈ platforms → p ∈ creds → task p = .ok r →
        dictLookup (post_to_multiple_platforms platforms creds task) p =
          some r) := by
  have hfold : ∀ p, dictLookup (post_to_multiple_platforms platforms creds task) p =
      if p ∈ platforms.filter (fun q => creds.contains q) then
        some (match task p with
              | .ok r => r
              | .error e => { status := .failed, message := some e })
      else none := by
    intro p
    exact dictLookup_fold
      (fun n => match task n with
                | .ok r => r
                | .error e => { status := .failed, message := some e })
      (platforms.filter (fun q => creds.contains q)) [] p
  have hmemf : ∀ p, p ∈ platforms.filter (fun q => creds.contains q) ↔
      (p ∈ platforms ∧ p ∈ creds) := by
    intro p
    rw [List.mem_filter]
    exact and_congr_right (fun _ => contains_eq_mem creds p)
  refine ⟨fun p => ?_, fun p e hp hc ht => ?_, fun p r hp hc ht => ?_⟩
  · rw [hfold]
    by_cases h : p ∈ platforms.filter (fun q => creds.contains q)
    · simp [h, (hmemf p).mp h]
    · rw [if_neg h]
      constructor
      · intro hcon; exact absurd hcon (by simp)
      · intro hcon; exact absurd ((hmemf p).mpr hcon) h
  · rw [hfold, ht]
    rw [if_pos ((hmemf p).mpr ⟨hp, hc⟩)]
  · rw [hfold, ht]
    rw [if_pos ((hmemf p).mpr ⟨hp, hc⟩)]

/-- Witness for C4: with platforms A (succeeds), B (raises "boom") and C
(no credentials), A maps to its SUCCESS result, B maps to FAILED "boom", and
C is absent from the result map. -/
theorem post_to_multiple_platforms_isolation_witness :
    dictLookup
      (post_to_multiple_platforms ["facebook", "craigslist", "offerup"]
        ["facebook", "craigslist"]
        (fun n => if n = "facebook" then .ok { status := .success }
                  else .error "boom"))
      "craigslist" = some { status := .failed, message := some "boom" }
    ∧ ¬ (dictLookup
      (post_to_multiple_platforms ["facebook", "craigslist", "offerup"]
        ["facebook", "craigslist"]
        (fun n => if n = "facebook" then .ok { status := .success }
                  else .error "boom"))
      "offerup").isSome :=
  ⟨(post_to_multiple_platforms_isolation ["facebook", "craigslist", "offerup"]
      ["facebook", "craigslist"]
      (fun n => if n = "facebook" then .ok { status := .success }
                else .error "boom")).2.1
    "craigslist" "boom" (by decide) (by decide) rfl,
   fun h =>
    by
      have := ((post_to_multiple_platforms_isolation
        ["facebook", "craigslist", "offerup"] ["facebook", "craigslist"]
        (fun n => if n = "facebook" then .ok { status := .success }
                  else .error "boom")).1 "offerup").mp h
      exact absurd this.2 (by decide)⟩

theorem scanAreaOptions_exact (ll : List Char) (ts : List (List Char)) :
    ∀ i m, ts.any (exactOption ll) = true →
      scanAreaOptions ll ts i m = i + ts.findIdx (exactOption ll) := by
  induction ts with
  | nil => intro i m h; simp at h
  | cons t ts ih =>
    intro i m h
    by_cases ht : t = []
    · subst ht
      have hh : ts.any (exactOption ll) = true := by
        simpa [exactOption] using h
      rw [scanAreaOptions, if_pos rfl, ih (i + 1) m hh]
      simp [List.findIdx_cons, exactOption]
      omega
    · by_cases he : ll = stripStr (lowerStr t)
      · rw [scanAreaOptions, if_neg ht, if_pos he]
        have : exactOption ll t = true := by
          simp [exactOption, ht, he]
        simp [List.findIdx_cons, this]
      · have hex : exactOption ll t = false := by
          simp [exactOption, ht]
          intro h'
          exact absurd h' he
        have hh : ts.any (exactOption ll) = true := by
          simpa [hex] using h
        rw [scanAreaOptions, if_neg ht, if_neg he, ih (i + 1) _ hh]
        simp [List.findIdx_cons, hex]
        omega

theorem scanAreaOptions_frozen (ll : List Char) (ts : List (List Char)) :
    ∀ i m, (∀ t ∈ ts, exactOption ll t = false) → m ≠ 0 →
      scanAreaOptions ll ts i m = m := by
  induction ts with
  | nil => intro i m _ _; rfl
  | cons t ts ih =>
    intro i m h hm
    have hts : ∀ t ∈ ts, exactOption ll t = false :=
      fun t' ht' => h t' (List.mem_cons_of_mem t ht')
    by_cases ht : t = []
    · rw [scanAreaOptions, if_pos ht]; exact ih (i + 1) m hts hm
    · by_cases he : ll = stripStr (lowerStr t)
      · have : exactOption ll t = true := by simp [exactOption, ht, he]
        rw [h t (List.mem_cons_self t ts)] at this
        cases this
      · rw [scanAreaOptions, if_neg ht, if_neg he]
        have hm0 : (m == 0) = false := by
          simp [hm]
        simp only [hm0, Bool.and_false, if_neg Bool.false_ne_true]
        exact ih (i + 1) m hts hm

theorem scanAreaOptions_noexact (ll : List Char) (ts : List (List Char)) :
    ∀ i, (∀ t ∈ ts, exactOption ll t = false) →
      scanAreaOptions ll ts i 0 = firstPosSubstrIdx ll ts i := by
  induction ts with
  | nil => intro i _; rfl
  | cons t ts ih =>
    intro i h
    have hts : ∀ t ∈ ts, exactOption ll t = false :=
      fun t' ht' => h t' (List.mem_cons_of_mem t ht')
    by_cases ht : t = []
    · rw [scanAreaOptions, if_pos ht, firstPosSubstrIdx]
      have : (t == []) = true := by simp [ht]
      rw [this]
      simp only [Bool.not_true, Bool.false_and, if_neg Bool.false_ne_true]
      exact ih (i + 1) hts
    · have htb : (t == []) = false := by simp [ht]
      by_cases he : ll = stripStr (lowerStr t)
      · have : exactOption ll t = true := by simp [exactOption, ht, he]
        rw [h t (List.mem_cons_self t ts)] at this
        cases this
      · rw [scanAreaOptions, if_neg ht, if_neg he, firstPosSubstrIdx, htb]
        by_cases hsub : substrOf ll (stripStr (lowerStr t)) = true
        · by_cases hi : i = 0
          · subst hi
            simp only [hsub, Bool.not_false, Bool.true_and,
              beq_self_eq_true, Bool.not_true, Bool.and_false,
              if_neg Bool.false_ne_true, if_pos rfl]
            exact ih 1 hts
          · have hib : (i == 0) = false := by simp [hi]
            simp only [hsub, hib, Bool.not_false, Bool.true_and,
              Bool.and_true, if_pos rfl]
            exact scanAreaOptions_frozen ll ts (i + 1) i hts hi
        · have hsubf : substrOf ll (stripStr (lowerStr t)) = false := by
            cases hq : substrOf ll (stripStr (lowerStr t))
            · rfl
            · exact absurd hq hsub
          simp only [hsubf, Bool.not_false, Bool.true_and, Bool.false_and,
            if_neg Bool.false_ne_true]
          exact ih (i + 1) hts

/-- C8 (amended): the selector prefers an exact (case-insensitive, stripped)
match — when one exists it selects the FIRST exactly-matching option — and on
the concrete options ["Phoenix", "Phoenix East", "Flagstaff"] with input
"Phoenix" it selects index 0.  With no exact match, however, it falls back to
the first substring match at a POSITIVE index (defaulting to the first
option): a substring match at index 0 leaves the default in place, so a later
substring match overrides it. -/
theorem handle_location_selection_spec (location : String)
    (options : List String) :
    ((options.map String.toList).any
        (exactOption (lowerStr location.toList)) = true →
      _handle_location_selection location options =
        (options.map String.toList).findIdx
          (exactOption (lowerStr location.toList)))
    ∧ ((∀ t ∈ options.map String.toList,
        exactOption (lowerStr location.toList) t = false) →
      _handle_location_selection location options =
        firstPosSubstrIdx (lowerStr location.toList)
          (options.map String.toList) 0)
    ∧ _handle_location_selection "Phoenix"
        ["Phoenix", "Phoenix East", "Flagstaff"] = 0 := by
  refine ⟨fun h => ?_, fun h => ?_, by decide⟩
  · have h2 := scanAreaOptions_exact (lowerStr location.toList)
      (options.map String.toList) 0 0 h
    simpa [_handle_location_selection] using h2
  · exact scanAreaOptions_noexact (lowerStr location.toList)
      (options.map String.toList) 0 h

/-- Witness for C8 (amended): with an exact match present at index 1, the
selector picks it even though index 0 substring-matches. -/
theorem handle_location_selection_spec_witness :
    _handle_location_selection "Phoenix" ["Phoenix East", "Phoenix"] = 1 := by
  rw [(handle_location_selection_spec "Phoenix" ["Phoenix East", "Phoenix"]).1
    (by decide)]
  decide

/-- C8 counterexample: with options ["Phoenix East", "Phoenix West"] and input
"Phoenix" there is no exact match and the FIRST substring match is at index 0
(the second conjunct), yet the selector returns index 1, so the claimed
fall-back to the first substring match is false. -/
theorem handle_location_selection_counterexample :
    _handle_location_selection "Phoenix" ["Phoenix East", "Phoenix West"] = 1
    ∧ substrOf (lowerStr "Phoenix".toList)
        (stripStr (lowerStr "Phoenix East".toList)) = true := by
  decide

theorem contains_eq_mem_nat (l : List Nat) (a : Nat) :
    l.contains a = true ↔ a ∈ l := by
  simp [List.contains, List.elem_iff]

theorem runAttemptsAux_spec (ok : Nat → Bool) (max_retries : Nat) :
    ∀ remaining attempt, attempt + remaining = max_retries → 0 < remaining →
      1 ≤ (runAttemptsAux ok max_retries attempt remaining).2.1 ∧
      (runAttemptsAux ok max_retries attempt remaining).2.1 ≤ remaining ∧
      (runAttemptsAux ok max_retries attempt remaining).2.2 =
        (List.range' attempt
          ((runAttemptsAux ok max_retries attempt remaining).2.1 - 1)).map
          (fun a => 2 ^ a) := by
  intro remaining
  induction remaining with
  | zero => intro attempt _ h; cases h
  | succ n ih =>
    intro attempt hsum _
    by_cases hk : ok attempt = true
    · simp [runAttemptsAux, hk]
    · have hkf : ok attempt = false := by
        cases hq : ok attempt
        · rfl
        · exact absurd hq hk
      by_cases hlt : attempt < max_retries - 1
      · have hn : 0 < n := by omega
        have hsum' : attempt + 1 + n = max_retries := by omega
        obtain ⟨h1, h2, h3⟩ := ih (attempt + 1) hsum' hn
        rw [runAttemptsAux]
        simp only [hkf, if_neg Bool.false_ne_true, if_pos hlt]
        refine ⟨by omega, by omega, ?_⟩
        have hrw : (runAttemptsAux ok max_retries (attempt + 1) n).2.1 + 1 - 1 =
            ((runAttemptsAux ok max_retries (attempt + 1) n).2.1 - 1) + 1 := by
          omega
        rw [hrw, List.range'_succ, List.map_cons, h3]
      · rw [runAttemptsAux]
        simp [hkf, hlt]

/-- The retry loop makes between 1 and 3 attempts and sleeps exactly
`2 ** attempt` seconds after each failed attempt that is followed by
another one. -/
theorem runAttempts_spec (ok : Nat → Bool) :
    1 ≤ (runAttempts ok 3).2.1 ∧ (runAttempts ok 3).2.1 ≤ 3 ∧
    (runAttempts ok 3).2.2 =
      (List.range ((runAttempts ok 3).2.1 - 1)).map (fun a => 2 ^ a) := by
  have h := runAttemptsAux_spec ok 3 3 0 rfl (by omega)
  rw [List.range_eq_range']
  exact h

theorem cl_foldl_spec (ok : Nat → Nat → Bool) (l : List Nat) :
    ∀ s : DlState,
      (∀ j ∈ s.temp_files, j ∉ l) → (∀ j ∈ s.fs, j ∉ l) → l.Nodup →
      l.foldl (cl_download_step ok) s =
        { temp_files :=
            s.temp_files ++ l.filter (fun i => (runAttempts (ok i) 3).1)
          sleeps := s.sleeps ++ (l.map (fun i => (runAttempts (ok i) 3).2.2)).flatten
          fs := s.fs ++ l.filter (fun i => (runAttempts (ok i) 3).1) } := by
  induction l with
  | nil => intro s _ _ _; simp
  | cons a l' ih =>
    intro s htf hfs hnd
    have hnd' : l'.Nodup := (List.nodup_cons.mp hnd).2
    have hal' : a ∉ l' := (List.nodup_cons.mp hnd).1
    have hatf : a ∉ s.temp_files := fun h => htf a h (List.mem_cons_self a l')
    have hafs : a ∉ s.fs := fun h => hfs a h (List.mem_cons_self a l')
    rw [List.foldl_cons]
    by_cases hr : (runAttempts (ok a) 3).1 = true
    · have hstep : cl_download_step ok s a =
          { temp_files := s.temp_files ++ [a]
            sleeps := s.sleeps ++ (runAttempts (ok a) 3).2.2
            fs := s.fs ++ [a] } := by
        have : s.fs.contains a = false := by
          cases hq : s.fs.contains a
          · rfl
          · exact absurd ((contains_eq_mem_nat s.fs a).mp hq) hafs
        simp [cl_download_step, hr, fsAdd, this, hafs]
      rw [hstep, ih _
        (by intro j hj
            rcases List.mem_append.mp hj with h | h
            · exact fun hc => htf j h (List.mem_cons_of_mem a hc)
            · simp at h; subst h; exact hal')
        (by intro j hj
            rcases List.mem_append.mp hj with h | h
            · exact fun hc => hfs j h (List.mem_cons_of_mem a hc)
            · simp at h; subst h; exact hal')
        hnd']
      simp [List.filter_cons, hr]
    · have hrf : (runAttempts (ok a) 3).1 = false := by
        cases hq : (runAttempts (ok a) 3).1
        · rfl
        · exact absurd hq hr
      have hstep : cl_download_step ok s a =
          { temp_files := s.temp_files
            sleeps := s.sleeps ++ (runAttempts (ok a) 3).2.2
            fs := s.fs } := by
        have herase : (s.temp_files ++ [a]).erase a = s.temp_files := by
          rw [List.erase_append_right _ hatf, List.erase_cons_head,
            List.append_nil]
        simp [cl_download_step, hrf, herase]
      rw [hstep, ih
        { temp_files := s.temp_files
          sleeps := s.sleeps ++ (runAttempts (ok a) 3).2.2
          fs := s.fs }
        (by intro j hj hc; exact htf j hj (List.mem_cons_of_mem a hc))
        (by intro j hj hc; exact hfs j hj (List.mem_cons_of_mem a hc))
        hnd']
      simp [List.filter_cons, hrf]

theorem fb_foldl_spec (ok : Nat → Nat → Bool) (l : List Nat) :
    ∀ s : DlState,
      (∀ j ∈ s.fs, j ∉ l) → l.Nodup →
      l.foldl (fb_download_step ok) s =
        { temp_files := s.temp_files ++ l
          sleeps := s.sleeps ++ (l.map (fun i => (runAttempts (ok i) 3).2.2)).flatten
          fs := s.fs ++ l.filter (fun i => (runAttempts (ok i) 3).1) } := by
  induction l with
  | nil => intro s _ _; simp
  | cons a l' ih =>
    intro s hfs hnd
    have hnd' : l'.Nodup := (List.nodup_cons.mp hnd).2
    have hal' : a ∉ l' := (List.nodup_cons.mp hnd).1
    have hafs : a ∉ s.fs := fun h => hfs a h (List.mem_cons_self a l')
    rw [List.foldl_cons]
    by_cases hr : (runAttempts (ok a) 3).1 = true
    · have hstep : fb_download_step ok s a =
          { temp_files := s.temp_files ++ [a]
            sleeps := s.sleeps ++ (runAttempts (ok a) 3).2.2
            fs := s.fs ++ [a] } := by
        have : s.fs.contains a = false := by
          cases hq : s.fs.contains a
          · rfl
          · exact absurd ((contains_eq_mem_nat s.fs a).mp hq) hafs
        simp [fb_download_step, hr, fsAdd, this, hafs]
      rw [hstep, ih _
        (by intro j hj
            rcases List.mem_append.mp hj with h | h
            · exact fun hc => hfs j h (List.mem_cons_of_mem a hc)
            · simp at h; subst h; exact hal')
        hnd']
      simp [List.filter_cons, hr]
    · have hrf : (runAttempts (ok a) 3).1 = false := by
        cases hq : (runAttempts (ok a) 3).1
        · rfl
        · exact absurd hq hr
      have hstep : fb_download_step ok s a =
          { temp_files := s.temp_files ++ [a]
            sleeps := s.sleeps ++ (runAttempts (ok a) 3).2.2
            fs := s.fs } := by
        simp [fb_download_step, hrf]
      rw [hstep, ih
        { temp_files := s.temp_files ++ [a]
          sleeps := s.sleeps ++ (runAttempts (ok a) 3).2.2
          fs := s.fs }
        (by intro j hj hc; exact hfs j hj (List.mem_cons_of_mem a hc))
        hnd']
      simp [List.filter_cons, hrf]

theorem cl_download_images_eq (ok : Nat → Nat → Bool)
    (image_urls : List String) :
    cl_download_images ok image_urls =
      ((List.range image_urls.length).filter
          (fun i => (runAttempts (ok i) 3).1),
       { temp_files := (List.range image_urls.length).filter
           (fun i => (runAttempts (ok i) 3).1)
         sleeps := ((List.range image_urls.length).map
           (fun i => (runAttempts (ok i) 3).2.2)).flatten
         fs := (List.range image_urls.length).filter
           (fun i => (runAttempts (ok i) 3).1) }) := by
  have hcl := cl_foldl_spec ok (List.range image_urls.length)
    { temp_files := [], sleeps := [], fs := [] } (by simp) (by simp)
    (List.nodup_range _)
  have hfilter : ∀ F : List Nat, F.filter (fun f => F.contains f) = F :=
    fun F => List.filter_eq_self.mpr
      (fun a ha => (contains_eq_mem_nat F a).mpr ha)
  simp only [cl_download_images, hcl, List.nil_append, hfilter]

theorem fb_download_images_eq (ok : Nat → Nat → Bool)
    (image_urls : List String) :
    fb_download_images ok image_urls =
      (List.range image_urls.length,
       { temp_files := List.range image_urls.length
         sleeps := ((List.range image_urls.length).map
           (fun i => (runAttempts (ok i) 3).2.2)).flatten
         fs := (List.range image_urls.length).filter
           (fun i => (runAttempts (ok i) 3).1) }) := by
  have hfb := fb_foldl_spec ok (List.range image_urls.length)
    { temp_files := [], sleeps := [], fs := [] } (by simp)
    (List.nodup_range _)
  simp only [fb_download_images, hfb, List.nil_append]

/-- Unlinking a list of files that covers the live filesystem empties it. -/
theorem cleanup_all (temp : List Nat) :
    ∀ fs : List Nat, (∀ x ∈ fs, x ∈ temp) →
      _cleanup_temp_files fs temp = [] := by
  induction temp with
  | nil =>
    intro fs h
    have : fs = [] := List.eq_nil_iff_forall_not_mem.mpr
      (fun a ha => by simpa using h a ha)
    simp [_cleanup_temp_files, this]
  | cons t ts ih =>
    intro fs h
    show _cleanup_temp_files (fs.filter (· ≠ t)) ts = []
    apply ih
    intro x hx
    have hmem := List.mem_of_mem_filter hx
    have hne : x ≠ t := by
      have := List.of_mem_filter hx
      simpa using this
    rcases List.mem_cons.mp (h x hmem) with h1 | h1
    · exact absurd rfl (h1 ▸ hne)
    · exact h1

/-- C6 (amended): both interactive adapters attempt each URL at most 3 times,
sleeping `2 ^ attempt` seconds between consecutive attempts.  The CRAIGSLIST
routine returns exactly the successfully downloaded files (a URL failing all
3 attempts is dropped).  The FACEBOOK routine, however, returns the temp-file
path of EVERY url — including urls whose downloads all failed, whose files do
not exist (third conjunct) — so its upload proceeds on paths of never-
downloaded files rather than dropping them. -/
theorem download_images_retry_spec (ok : Nat → Nat → Bool)
    (image_urls : List String) :
    (cl_download_images ok image_urls).1 =
      (List.range image_urls.length).filter
        (fun i => (runAttempts (ok i) 3).1)
    ∧ (fb_download_images ok image_urls).1 = List.range image_urls.length
    ∧ (fb_download_images ok image_urls).2.fs =
      (List.range image_urls.length).filter
        (fun i => (runAttempts (ok i) 3).1)
    ∧ ∀ i, 1 ≤ (runAttempts (ok i) 3).2.1 ∧ (runAttempts (ok i) 3).2.1 ≤ 3 ∧
        (runAttempts (ok i) 3).2.2 =
          (List.range ((runAttempts (ok i) 3).2.1 - 1)).map (fun a => 2 ^ a) := by
  refine ⟨?_, ?_, ?_, fun i => runAttempts_spec (ok i)⟩
  · rw [cl_download_images_eq]
  · rw [fb_download_images_eq]
  · rw [fb_download_images_eq]

/-- C6 counterexample: with two urls where the second always fails, facebook's
download routine returns BOTH temp paths (first conjunct) although the second
url's file was never downloaded and does not exist (second conjunct) — the
returned list is not "exactly the successfully downloaded files". -/
theorem fb_download_keeps_failed_counterexample :
    (fb_download_images (fun i _ => i == 0) ["u0", "u1"]).1 = [0, 1]
    ∧ 1 ∉ (fb_download_images (fun i _ => i == 0) ["u0", "u1"]).2.fs := by
  decide

/-- C7: on every exit path of both adapters' `_upload_images` — empty input,
missing upload control, download yielding nothing, upload raising, or
success — every temp file created for the image batch has been deleted when
the routine returns: the final filesystem holds zero leftover temp files. -/
theorem upload_images_cleanup (ok : Nat → Nat → Bool)
    (image_urls : List String) (input_visible button_visible : Bool)
    (set_files direct chooser : Except String Unit) (w1 w2 : Bool) :
    (cl_upload_images ok image_urls input_visible set_files w1).2 = []
    ∧ (fb_upload_images ok image_urls button_visible direct chooser w2).2 = [] := by
  have hclean_cl : _cleanup_temp_files (cl_download_images ok image_urls).2.fs
      (cl_download_images ok image_urls).1 = [] := by
    rw [cl_download_images_eq]
    exact cleanup_all _ _ (fun x hx => hx)
  have hclean_fb : _cleanup_temp_files (fb_download_images ok image_urls).2.fs
      (fb_download_images ok image_urls).1 = [] := by
    rw [fb_download_images_eq]
    exact cleanup_all _ _ (fun x hx => List.mem_of_mem_filter hx)
  constructor
  · rw [cl_upload_images]
    by_cases he : image_urls.isEmpty
    · simp [he]
    · cases input_visible
      · simp [he]
      · cases hd : (cl_download_images ok image_urls).1.isEmpty
        · cases set_files with
          | error e => simp [he, hd, hclean_cl]
          | ok u => simp [he, hd, hclean_cl]
        · simp [he, hd, hclean_cl]
  · rw [fb_upload_images]
    by_cases he : image_urls.isEmpty
    · simp [he]
    · cases hd : (fb_download_images ok image_urls).1.isEmpty
      · cases button_visible
        · simp [he, hd, hclean_fb]
        · cases direct with
          | error e =>
            cases chooser with
            | error e2 => simp [he, hd, hclean_fb]
            | ok u => simp [he, hd, hclean_fb]
          | ok u => simp [he, hd, hclean_fb]
      · simp [he, hd, hclean_fb]

end CrossPostMe

